import Mathlib

/-!
Shallow embedding of `src/utils/estimate.ts` (concrete-estimator pricing
engine).  JavaScript numbers are modelled as rationals; `Math.round` is
modelled as `fun x => ⌊x + 1/2⌋`, which agrees with the JavaScript
function at every numeric value, and `Number.EPSILON` as `1 / 2 ^ 52`.
Optional / nullable fields are modelled as `Option`.
-/

namespace Estimate

/-- `Number.EPSILON` from JavaScript, i.e. `2⁻⁵²`. -/
def jsEpsilon : ℚ := 1 / 2 ^ 52

/-- `round2` from `estimate.ts`:
`Math.round((n + Number.EPSILON) * 100) / 100`, with `Math.round x`
modelled as `⌊x + 1/2⌋`, which agrees with JavaScript at every numeric
value. -/
def round2 (n : ℚ) : ℚ := (⌊(n + jsEpsilon) * 100 + 1 / 2⌋ : ℚ) / 100

/-- `MarkupTier` from `estimate.ts`; `maxAmount = none` models `null`
(no upper limit). -/
structure MarkupTier where
  minAmount : ℚ
  maxAmount : Option ℚ
  percent : ℚ
  rank : ℚ
deriving DecidableEq, Repr

/-- Result record of `applyMarkupTiers`. -/
structure TierResult where
  markup : ℚ
  effectivePct : ℚ
deriving DecidableEq, Repr

/-- Comparison used by `tiers.sort((a, b) => a.rank - b.rank)`. -/
def rankLe (a b : MarkupTier) : Prop := a.rank ≤ b.rank

instance : DecidableRel rankLe := fun a b => inferInstanceAs (Decidable (a.rank ≤ b.rank))

instance : IsTotal MarkupTier rankLe := ⟨fun a b => le_total a.rank b.rank⟩

instance : IsTrans MarkupTier rankLe := ⟨fun _ _ _ h h2 => le_trans h h2⟩

/-- The sort `[...tiers].sort((a, b) => a.rank - b.rank)`: JavaScript
`Array.prototype.sort` is a stable ascending sort, modelled by the stable
`List.insertionSort`. -/
def sortTiers (tiers : List MarkupTier) : List MarkupTier :=
  tiers.insertionSort rankLe

/-- One loop iteration's slice:
`Math.max(0, Math.min(remaining, high - low))` where
`high = t.maxAmount ?? Infinity` and `low = t.minAmount ?? 0`
(so `high - low = Infinity` and the `min` is `remaining` when
`maxAmount` is `null`). -/
def tierSlice (remaining : ℚ) (t : MarkupTier) : ℚ :=
  match t.maxAmount with
  | none => max 0 remaining
  | some high => max 0 (min remaining (high - t.minAmount))

/-- The `for (const t of sorted)` loop of `applyMarkupTiers`, with the
`if (remaining <= 0) break` guard and the `if (slice > 0)` update. -/
def tierLoop : ℚ → ℚ → List MarkupTier → ℚ
  | _, markup, [] => markup
  | remaining, markup, t :: ts =>
    if remaining ≤ 0 then markup
    else
      let slice := tierSlice remaining t
      if 0 < slice then
        tierLoop (remaining - slice) (markup + slice * (t.percent / 100)) ts
      else tierLoop remaining markup ts

/-- `applyMarkupTiers` from `estimate.ts`. -/
def applyMarkupTiers (base : ℚ) (tiers : List MarkupTier) : TierResult :=
  if tiers.isEmpty then ⟨0, 0⟩
  else
    let markup := tierLoop base 0 (sortTiers tiers)
    let effectivePct := if 0 < base then markup / base * 100 else 0
    ⟨round2 markup, round2 effectivePct⟩

/-- `lineSubtotal` from `estimate.ts`. -/
def lineSubtotal (quantity : ℚ) (unitCost : ℚ) : ℚ := round2 (quantity * unitCost)

/-- The `contingencyOrder` enum `"AFTER_MARKUP" | "BEFORE_MARKUP"`. -/
inductive ContingencyOrder where
  | AFTER_MARKUP : ContingencyOrder
  | BEFORE_MARKUP : ContingencyOrder
deriving DecidableEq, Repr

/-- The `options` record of `withMarkupAndContingency`; `lineMarkupPct`
and `contingencyPct` are optional with destructuring default `0`. -/
structure WmcOptions where
  useMarkupTiers : Bool
  tiers : List MarkupTier
  lineMarkupPct : Option ℚ
  contingencyPct : Option ℚ
  contingencyOrder : ContingencyOrder
deriving DecidableEq, Repr

/-- Result record of `withMarkupAndContingency`. -/
structure LineResult where
  base : ℚ
  contingency : ℚ
  markup : ℚ
  total : ℚ
deriving DecidableEq, Repr

/-- `withMarkupAndContingency` from `estimate.ts`. -/
def withMarkupAndContingency (base : ℚ) (options : WmcOptions) : LineResult :=
  let lineMarkupPct := options.lineMarkupPct.getD 0
  let contingencyPct := options.contingencyPct.getD 0
  let subtotal := base
  let markup :=
    if options.useMarkupTiers then (applyMarkupTiers subtotal options.tiers).markup
    else round2 (subtotal * (lineMarkupPct / 100))
  let afterMarkup := subtotal + markup
  match options.contingencyOrder with
  | ContingencyOrder.BEFORE_MARKUP =>
    let pre := round2 (subtotal * (contingencyPct / 100))
    let newBase := subtotal + pre
    let mk :=
      if options.useMarkupTiers then (applyMarkupTiers newBase options.tiers).markup
      else round2 (newBase * (lineMarkupPct / 100))
    ⟨subtotal, pre, mk, round2 (newBase + mk)⟩
  | ContingencyOrder.AFTER_MARKUP =>
    let contingency := round2 (afterMarkup * (contingencyPct / 100))
    ⟨subtotal, contingency, markup, round2 (afterMarkup + contingency)⟩

/-- Result record of `addMobilization`. -/
structure MobResult where
  mobilization : ℚ
  totalWithMobilization : ℚ
deriving DecidableEq, Repr

/-- `addMobilization` from `estimate.ts` (`mobilizationCount || 0` is the
identity on actual numbers other than `NaN`, which ℚ has no analogue of). -/
def addMobilization (currentTotal mobilizationPrice mobilizationCount : ℚ) : MobResult :=
  let mob := round2 (mobilizationPrice * mobilizationCount)
  ⟨mob, round2 (currentTotal + mob)⟩

/-- The `taxableBreakdown` record of `applyTax`. -/
structure TaxableBreakdown where
  materials : ℚ
  labor : ℚ
  equipment : ℚ
  markup : ℚ
  contingency : ℚ
  other : ℚ
deriving DecidableEq, Repr

/-- The `tax` argument record of `applyTax`. -/
structure TaxInfo where
  rate : ℚ
  taxMaterials : Bool
  taxLabor : Bool
  taxEquipment : Bool
  taxMarkup : Bool
  taxContingency : Bool
  taxableBreakdown : TaxableBreakdown
deriving DecidableEq, Repr

/-- Result record of `applyTax`. -/
structure TaxResult where
  tax : ℚ
  totalWithTax : ℚ
deriving DecidableEq, Repr

/-- `applyTax` from `estimate.ts`: the sequence of
`if (flag) taxable += bucket` statements written as a sum of guarded
addends. -/
def applyTax (currentTotal : ℚ) (tax : TaxInfo) : TaxResult :=
  let rateDec := tax.rate / 100
  let taxable :=
    (if tax.taxMaterials then tax.taxableBreakdown.materials else 0)
      + (if tax.taxLabor then tax.taxableBreakdown.labor else 0)
      + (if tax.taxEquipment then tax.taxableBreakdown.equipment else 0)
      + (if tax.taxMarkup then tax.taxableBreakdown.markup else 0)
      + (if tax.taxContingency then tax.taxableBreakdown.contingency else 0)
  let taxAmt := round2 (taxable * rateDec)
  ⟨taxAmt, round2 (currentTotal + taxAmt)⟩

/-- `TotalsItemInput` from `estimate.ts` (every field nullable). -/
structure TotalsItemInput where
  quantity : Option ℚ
  unitCost : Option ℚ
  isMaterial : Option Bool
  isLabor : Option Bool
  isEquipment : Option Bool
  markupPct : Option ℚ
  contingencyPct : Option ℚ
deriving DecidableEq, Repr

/-- `TotalsEstimateInput` (the non-null payload; the whole record is
`Option`al at use sites, matching `... | null`). -/
structure TotalsEstimateInput where
  markupPct : Option ℚ
  contingencyPct : Option ℚ
  mobilizationCount : Option ℚ
deriving DecidableEq, Repr

/-- `TotalsSettingsInput` (the non-null payload). -/
structure TotalsSettingsInput where
  useMarkupTiers : Option Bool
  defaultContingency : Option ℚ
  contingencyOrder : Option ContingencyOrder
  mobilizationPrice : Option ℚ
deriving DecidableEq, Repr

/-- `TotalsTaxInput` (the non-null payload). -/
structure TotalsTaxInput where
  rate : Option ℚ
  taxMaterials : Option Bool
  taxLabor : Option Bool
  taxEquipment : Option Bool
  taxMarkup : Option Bool
  taxContingency : Option Bool
deriving DecidableEq, Repr

/-- `ComputeTotalsInput` from `estimate.ts`. -/
structure ComputeTotalsInput where
  items : List TotalsItemInput
  estimate : Option TotalsEstimateInput
  settings : Option TotalsSettingsInput
  tax : Option TotalsTaxInput
  tiers : List MarkupTier
deriving DecidableEq, Repr

/-- `ComputeTotalsResult` from `estimate.ts`. -/
structure ComputeTotalsResult where
  subtotal : ℚ
  markupPct : ℚ
  contingencyPct : ℚ
  markupAmount : ℚ
  contingencyAmount : ℚ
  afterMarkup : ℚ
  afterContingency : ℚ
  mobilization : ℚ
  taxRate : ℚ
  taxBase : ℚ
  taxTotal : ℚ
  grand : ℚ
deriving DecidableEq, Repr

/-- `sanitizeNumber` from `estimate.ts` (`null`/`undefined` become the
fallback; the `NaN` guard has no ℚ analogue; `Number(value)` is the
identity on numbers). -/
def sanitizeNumber (value : Option ℚ) (fallback : ℚ) : ℚ :=
  match value with
  | none => fallback
  | some v => v

/-- The local `subtotal` of `computeTotals`:
`items.reduce((sum, it) => sum + qty * unitCost, 0)`. -/
def subtotalU (input : ComputeTotalsInput) : ℚ :=
  input.items.foldl
    (fun sum it => sum + sanitizeNumber it.quantity 0 * sanitizeNumber it.unitCost 0) 0

/-- The local `useTiers` of `computeTotals`:
`!!settings?.useMarkupTiers && tiers.length > 0`. -/
def useTiersU (input : ComputeTotalsInput) : Bool :=
  (input.settings.bind (fun s => s.useMarkupTiers)).getD false && !input.tiers.isEmpty

/-- The local `markupRate` of `computeTotals`. -/
def markupRateU (input : ComputeTotalsInput) : ℚ :=
  if useTiersU input then
    if 0 < subtotalU input then
      (applyMarkupTiers (subtotalU input) input.tiers).markup / subtotalU input
    else 0
  else sanitizeNumber (input.estimate.bind (fun e => e.markupPct)) 0 / 100

/-- The local `contingencyRate` of `computeTotals`. -/
def contingencyRateU (input : ComputeTotalsInput) : ℚ :=
  sanitizeNumber (input.estimate.bind (fun e => e.contingencyPct))
    (sanitizeNumber (input.settings.bind (fun s => s.defaultContingency)) 0) / 100

/-- The local `markupAmount` of `computeTotals`. -/
def markupAmountU (input : ComputeTotalsInput) : ℚ :=
  subtotalU input * markupRateU input

/-- The local `afterMarkup` of `computeTotals`. -/
def afterMarkupU (input : ComputeTotalsInput) : ℚ :=
  subtotalU input + markupAmountU input

/-- The test `settings?.contingencyOrder === "BEFORE_MARKUP"` as a `Bool`. -/
def beforeMarkupU (input : ComputeTotalsInput) : Bool :=
  (input.settings.bind (fun s => s.contingencyOrder))
    = some ContingencyOrder.BEFORE_MARKUP

/-- The local `contingencyBase` of `computeTotals`. -/
def contingencyBaseU (input : ComputeTotalsInput) : ℚ :=
  if beforeMarkupU input then subtotalU input else afterMarkupU input

/-- The local `contingencyAmount` of `computeTotals`. -/
def contingencyAmountU (input : ComputeTotalsInput) : ℚ :=
  contingencyBaseU input * contingencyRateU input

/-- The local `afterContingency` of `computeTotals`. -/
def afterContingencyU (input : ComputeTotalsInput) : ℚ :=
  if beforeMarkupU input then
    subtotalU input + markupAmountU input + contingencyAmountU input
  else afterMarkupU input + contingencyAmountU input

/-- The local `mobilization` of `computeTotals`. -/
def mobilizationU (input : ComputeTotalsInput) : ℚ :=
  sanitizeNumber (input.settings.bind (fun s => s.mobilizationPrice)) 0
    * sanitizeNumber (input.estimate.bind (fun e => e.mobilizationCount)) 0

/-- The local `taxRateDec` of `computeTotals`. -/
def taxRateDecU (input : ComputeTotalsInput) : ℚ :=
  sanitizeNumber (input.tax.bind (fun t => t.rate)) 0 / 100

/-- The local `anyTaxFlag` of `computeTotals`. -/
def anyTaxFlagU (input : ComputeTotalsInput) : Bool :=
  (input.tax.bind (fun t => t.taxMaterials)).getD false
    || (input.tax.bind (fun t => t.taxLabor)).getD false
    || (input.tax.bind (fun t => t.taxEquipment)).getD false
    || (input.tax.bind (fun t => t.taxMarkup)).getD false
    || (input.tax.bind (fun t => t.taxContingency)).getD false

/-- The local `taxBase` of `computeTotals` (the MVP model: the whole
post-contingency total when any flag is set, else `0`). -/
def taxBaseU (input : ComputeTotalsInput) : ℚ :=
  if anyTaxFlagU input then afterContingencyU input else 0

/-- The local `taxTotal` of `computeTotals`. -/
def taxTotalU (input : ComputeTotalsInput) : ℚ :=
  taxBaseU input * taxRateDecU input

/-- The local `grand` of `computeTotals`. -/
def grandU (input : ComputeTotalsInput) : ℚ :=
  afterContingencyU input + mobilizationU input + taxTotalU input

/-- `computeTotals` from `estimate.ts`: the returned record, each field
rounded with `round2` exactly as in the source. -/
def computeTotals (input : ComputeTotalsInput) : ComputeTotalsResult where
  subtotal := round2 (subtotalU input)
  markupPct := round2 (markupRateU input * 100)
  contingencyPct := round2 (contingencyRateU input * 100)
  markupAmount := round2 (markupAmountU input)
  contingencyAmount := round2 (contingencyAmountU input)
  afterMarkup := round2 (afterMarkupU input)
  afterContingency := round2 (afterContingencyU input)
  mobilization := round2 (mobilizationU input)
  taxRate := round2 (taxRateDecU input * 100)
  taxBase := round2 (taxBaseU input)
  taxTotal := round2 (taxTotalU input)
  grand := round2 (grandU input)

/-- Spec-side taxable base ("sum of each bucket amount whose
corresponding flag in taxScope is true"): filter the flagged buckets and
sum them. -/
def taxableBaseSpec (tax : TaxInfo) : ℚ :=
  ((([ (tax.taxMaterials, tax.taxableBreakdown.materials),
       (tax.taxLabor, tax.taxableBreakdown.labor),
       (tax.taxEquipment, tax.taxableBreakdown.equipment),
       (tax.taxMarkup, tax.taxableBreakdown.markup),
       (tax.taxContingency, tax.taxableBreakdown.contingency) ] :
      List (Bool × ℚ)).filter (fun p => p.1)).map (fun p => p.2)).sum

/-- The data of a tier that the `applyMarkupTiers` loop actually
consumes: its width (`none` = unbounded) and its percent. -/
def tierWidthPct (t : MarkupTier) : Option ℚ × ℚ :=
  (t.maxAmount.map (fun high => high - t.minAmount), t.percent)

/-- Replace the contingency configuration of a `computeTotals` input:
the estimate-level contingency percent, the settings-level default
contingency and the contingency order. -/
def setContingencyConfig (input : ComputeTotalsInput) (c d : Option ℚ)
    (o : Option ContingencyOrder) : ComputeTotalsInput :=
  { input with
    estimate := input.estimate.map (fun e => { e with contingencyPct := c }),
    settings := input.settings.map
      (fun s => { s with defaultContingency := d, contingencyOrder := o }) }

/-- Set the `useMarkupTiers` flag of a `computeTotals` input (when a
settings record is present). -/
def setUseTiersFlag (input : ComputeTotalsInput) (b : Option Bool) : ComputeTotalsInput :=
  { input with
    settings := input.settings.map (fun s => { s with useMarkupTiers := b }) }

/-- One line item of 1 × 100 with a per-item markup override of 50 %,
while the estimate-level markup is 10 % (used against C7). -/
def cx7Input : ComputeTotalsInput :=
  ⟨[⟨some 1, some 100, none, none, none, some 50, none⟩],
   some ⟨some 10, none, none⟩, none, none, []⟩

/-- One line item of 1 × 100 with estimate markup 10 %, contingency 10 %
and `BEFORE_MARKUP` ordering (used against C1). -/
def cx1Input : ComputeTotalsInput :=
  ⟨[⟨some 1, some 100, none, none, none, none, none⟩],
   some ⟨some 10, some 10, none⟩,
   some ⟨none, none, some ContingencyOrder.BEFORE_MARKUP, none⟩, none, []⟩

/-- A 1000 materials item plus a 500 labor item with only `taxMaterials`
set, at a 10 % rate (used against C2). -/
def cx2Input : ComputeTotalsInput :=
  ⟨[⟨some 1, some 1000, some true, none, none, none, none⟩,
    ⟨some 1, some 500, none, some true, none, none, none⟩],
   none, none, some ⟨some 10, some true, none, none, none, none⟩, []⟩

/-- One 1 × 1 item with markup 0.5 % and contingency 0.5 %, chosen so
that per-bucket rounding differs from rounding the exact sum (used
against C3). -/
def cx3Input : ComputeTotalsInput :=
  ⟨[⟨some 1, some 1, none, none, none, none, none⟩],
   some ⟨some (1 / 2), some (1 / 2), none⟩, none, none, []⟩

/-- An empty item list with mobilization price 100 and count 2 (used
against C6). -/
def cx6Input : ComputeTotalsInput :=
  ⟨[], some ⟨none, none, some 2⟩, some ⟨none, none, none, some 100⟩, none, []⟩

/-- Tier `[0, 10) @ 10 %` with rank 1. -/
def tierA : MarkupTier := ⟨0, some 10, 10, 1⟩

/-- Tier `[0, 20) @ 50 %` with the same rank 1 as `tierA`. -/
def tierB : MarkupTier := ⟨0, some 20, 50, 1⟩

/-- Tier `[0, 10) @ 10 %` with rank 2 (distinct ranks witness for C8). -/
def tierC : MarkupTier := ⟨0, some 10, 10, 2⟩

/-- Tier `[0, 30) @ 20 %` with rank 1 (distinct ranks witness for C8). -/
def tierD : MarkupTier := ⟨0, some 30, 20, 1⟩

/-- Tier `[0, 10) @ 5 %` with rank 1 (width-10 band at the origin). -/
def tierE : MarkupTier := ⟨0, some 10, 5, 1⟩

/-- Tier `[100, 110) @ 5 %` with rank 1 (the same width-10 band
translated to 100, used for C10). -/
def tierF : MarkupTier := ⟨100, some 110, 5, 1⟩

/-- One 1 × 100 item, estimate markup 10 %, `useMarkupTiers` enabled but
an empty tier list (used for C9). -/
def w9Input : ComputeTotalsInput :=
  ⟨[⟨some 1, some 100, none, none, none, none, none⟩],
   some ⟨some 10, none, none⟩, some ⟨some true, none, none, none⟩, none, []⟩

/-- Flat-markup options: 10 % line markup, 10 % contingency,
`BEFORE_MARKUP` (used for the C1 witness). -/
def w1Opts : WmcOptions := ⟨false, [], some 10, some 10, ContingencyOrder.BEFORE_MARKUP⟩

/-- Flat-markup options: 50 % line markup, no contingency,
`AFTER_MARKUP` (used for the C7 witness). -/
def w7Opts : WmcOptions := ⟨false, [], some 50, none, ContingencyOrder.AFTER_MARKUP⟩

end Estimate

namespace Estimate

/-! ## Helper lemmas for evaluating `round2` on concrete inputs -/

lemma round2_eq_of (n : ℚ) (z : ℤ) (h₁ : (z : ℚ) ≤ (n + jsEpsilon) * 100 + 1 / 2)
    (h₂ : (n + jsEpsilon) * 100 + 1 / 2 < z + 1) : round2 n = (z : ℚ) / 100 := by
  have hz : ⌊(n + jsEpsilon) * 100 + 1 / 2⌋ = z := Int.floor_eq_iff.mpr ⟨h₁, h₂⟩
  rw [round2, hz]

lemma round2_eq_self (n : ℚ) (k : ℤ) (h : n * 100 = (k : ℚ)) : round2 n = n := by
  have heps : (0 : ℚ) < jsEpsilon := by norm_num [jsEpsilon]
  have heps2 : jsEpsilon * 100 < 1 / 2 := by norm_num [jsEpsilon]
  have h1 : (k : ℚ) ≤ (n + jsEpsilon) * 100 + 1 / 2 := by nlinarith
  have h2 : (n + jsEpsilon) * 100 + 1 / 2 < k + 1 := by nlinarith
  rw [round2_eq_of n k h1 h2, ← h]
  field_simp

/-! ## C4 -/

/-- C4: `applyMarkupTiers` applied to base 60000 with the three tiers
`[0,10000) @ 20 %`, `[10000,50000) @ 15 %`, `[50000,∞) @ 10 %` in
ascending rank order returns markup exactly 9000 (the progressive
bracket accumulation `10000×0.20 + 40000×0.15 + 10000×0.10`). -/
theorem c4_bracket_accumulation :
    (applyMarkupTiers 60000
      [⟨0, some 10000, 20, 1⟩, ⟨10000, some 50000, 15, 2⟩, ⟨50000, none, 10, 3⟩]).markup
      = 9000 := by
  norm_num [applyMarkupTiers, sortTiers, List.insertionSort, List.orderedInsert,
    rankLe, tierLoop, tierSlice, round2_eq_self 9000 900000 (by norm_num)]

/-! ## C5 -/

/-- C5: for every percent `P` and every base ≥ 0, `applyMarkupTiers`
with a single tier spanning `[0, ∞)` at percent `P` returns the same
markup as the flat computation `round2 (base * P / 100)`. -/
theorem c5_single_tier_flat (P rk base : ℚ) (h : 0 ≤ base) :
    (applyMarkupTiers base [⟨0, none, P, rk⟩]).markup = round2 (base * P / 100) := by
  have hsort : sortTiers [(⟨0, none, P, rk⟩ : MarkupTier)] = [⟨0, none, P, rk⟩] := by
    simp [sortTiers, List.insertionSort, List.orderedInsert]
  rcases eq_or_lt_of_le h with hz | hpos
  · have : tierLoop base 0 [(⟨0, none, P, rk⟩ : MarkupTier)] = 0 := by
      rw [tierLoop]
      simp [← hz]
    simp only [applyMarkupTiers, List.isEmpty_cons, Bool.false_eq_true, if_false, hsort, this]
    congr 1
    rw [← hz]
    ring
  · have hslice : tierSlice base (⟨0, none, P, rk⟩ : MarkupTier) = base := by
      simp [tierSlice, le_of_lt hpos]
    have hloop : tierLoop base 0 [(⟨0, none, P, rk⟩ : MarkupTier)] = base * (P / 100) := by
      rw [tierLoop]
      rw [if_neg (not_le.mpr hpos)]
      simp only [hslice, if_pos hpos, tierLoop]
      ring
    simp only [applyMarkupTiers, List.isEmpty_cons, Bool.false_eq_true, if_false, hsort, hloop]
    congr 1
    ring

/-- C5 witness: the single-spanning-tier reduction evaluated at
`P = 10`, `base = 200`. -/
theorem c5_witness :
    (0 : ℚ) ≤ 200 ∧
      (applyMarkupTiers 200 [⟨0, none, 10, 1⟩]).markup = round2 (200 * 10 / 100) :=
  ⟨by norm_num, c5_single_tier_flat 10 1 200 (by norm_num)⟩

end Estimate

namespace Estimate

/-! ## Congruence helpers for `computeTotals` -/

lemma computeTotals_congr (i1 i2 : ComputeTotalsInput) (hsub : subtotalU i1 = subtotalU i2)
    (hest : i1.estimate = i2.estimate) (hset : i1.settings = i2.settings)
    (htax : i1.tax = i2.tax) (htiers : i1.tiers = i2.tiers) :
    computeTotals i1 = computeTotals i2 := by
  have hut : useTiersU i1 = useTiersU i2 := by simp only [useTiersU, hset, htiers]
  have hmr : markupRateU i1 = markupRateU i2 := by
    simp only [markupRateU, hut, hsub, hest, htiers]
  have hcr : contingencyRateU i1 = contingencyRateU i2 := by
    simp only [contingencyRateU, hest, hset]
  have hbm : beforeMarkupU i1 = beforeMarkupU i2 := by simp only [beforeMarkupU, hset]
  have hma : markupAmountU i1 = markupAmountU i2 := by simp only [markupAmountU, hsub, hmr]
  have ham : afterMarkupU i1 = afterMarkupU i2 := by simp only [afterMarkupU, hsub, hma]
  have hcb : contingencyBaseU i1 = contingencyBaseU i2 := by
    simp only [contingencyBaseU, hbm, hsub, ham]
  have hca : contingencyAmountU i1 = contingencyAmountU i2 := by
    simp only [contingencyAmountU, hcb, hcr]
  have hac : afterContingencyU i1 = afterContingencyU i2 := by
    simp only [afterContingencyU, hbm, hsub, hma, hca, ham]
  have hmob : mobilizationU i1 = mobilizationU i2 := by simp only [mobilizationU, hset, hest]
  have htrd : taxRateDecU i1 = taxRateDecU i2 := by simp only [taxRateDecU, htax]
  have hflag : anyTaxFlagU i1 = anyTaxFlagU i2 := by simp only [anyTaxFlagU, htax]
  have htb : taxBaseU i1 = taxBaseU i2 := by simp only [taxBaseU, hflag, hac]
  have htt : taxTotalU i1 = taxTotalU i2 := by simp only [taxTotalU, htb, htrd]
  have hg : grandU i1 = grandU i2 := by simp only [grandU, hac, hmob, htt]
  simp only [computeTotals, hsub, hmr, hcr, hma, hca, ham, hac, hmob, htrd, htb, htt, hg]

lemma markupAmountU_congr (i1 i2 : ComputeTotalsInput) (hsub : subtotalU i1 = subtotalU i2)
    (hflag : i1.settings.bind (fun s => s.useMarkupTiers)
        = i2.settings.bind (fun s => s.useMarkupTiers))
    (htiers : i1.tiers = i2.tiers)
    (hmk : i1.estimate.bind (fun e => e.markupPct) = i2.estimate.bind (fun e => e.markupPct)) :
    markupAmountU i1 = markupAmountU i2 := by
  simp only [markupAmountU, markupRateU, useTiersU, hsub, hflag, htiers, hmk]

/-! ## C6 -/

/-- C6 counterexample: with an empty item list but mobilization price
100 and count 2, the reported mobilization is 200, not 0 — the
returned breakdown is not all-zero. -/
theorem c6_counterexample :
    (computeTotals cx6Input).mobilization = 200 ∧ (200 : ℚ) ≠ 0 := by
  constructor
  · show round2 (mobilizationU cx6Input) = 200
    have hm : mobilizationU cx6Input = 200 := by
      norm_num [mobilizationU, cx6Input, sanitizeNumber]
    rw [hm]
    exact round2_eq_self 200 20000 (by norm_num)
  · norm_num

/-- C6 amended: `computeTotals` (a total function — it never throws) on
an empty item list returns 0 for every item-derived monetary field
(`subtotal`, `markupAmount`, `contingencyAmount`, `afterMarkup`,
`afterContingency`, `taxBase`, `taxTotal`), while `mobilization` and
`grand` both equal `round2 (mobilizationPrice × mobilizationCount)`,
which need not be 0. -/
theorem c6_empty_items_amended (estimate : Option TotalsEstimateInput)
    (settings : Option TotalsSettingsInput) (tax : Option TotalsTaxInput)
    (tiers : List MarkupTier) :
    (computeTotals ⟨[], estimate, settings, tax, tiers⟩).subtotal = 0 ∧
    (computeTotals ⟨[], estimate, settings, tax, tiers⟩).markupAmount = 0 ∧
    (computeTotals ⟨[], estimate, settings, tax, tiers⟩).contingencyAmount = 0 ∧
    (computeTotals ⟨[], estimate, settings, tax, tiers⟩).afterMarkup = 0 ∧
    (computeTotals ⟨[], estimate, settings, tax, tiers⟩).afterContingency = 0 ∧
    (computeTotals ⟨[], estimate, settings, tax, tiers⟩).taxBase = 0 ∧
    (computeTotals ⟨[], estimate, settings, tax, tiers⟩).taxTotal = 0 ∧
    (computeTotals ⟨[], estimate, settings, tax, tiers⟩).mobilization
        = round2 (mobilizationU ⟨[], estimate, settings, tax, tiers⟩) ∧
    (computeTotals ⟨[], estimate, settings, tax, tiers⟩).grand
        = round2 (mobilizationU ⟨[], estimate, settings, tax, tiers⟩) := by
  set i : ComputeTotalsInput := ⟨[], estimate, settings, tax, tiers⟩ with hi
  have hzero : round2 0 = 0 := round2_eq_self 0 0 (by norm_num)
  have hsub : subtotalU i = 0 := rfl
  have hma : markupAmountU i = 0 := by rw [markupAmountU, hsub, zero_mul]
  have ham : afterMarkupU i = 0 := by rw [afterMarkupU, hsub, hma, add_zero]
  have hcb : contingencyBaseU i = 0 := by rw [contingencyBaseU, hsub, ham, ite_self]
  have hca : contingencyAmountU i = 0 := by rw [contingencyAmountU, hcb, zero_mul]
  have hac : afterContingencyU i = 0 := by
    rw [afterContingencyU, hsub, hma, hca, ham]
    simp
  have htb : taxBaseU i = 0 := by rw [taxBaseU, hac, ite_self]
  have htt : taxTotalU i = 0 := by rw [taxTotalU, htb, zero_mul]
  have hg : grandU i = mobilizationU i := by rw [grandU, hac, htt, zero_add, add_zero]
  refine ⟨?_, ?_, ?_, ?_, ?_, ?_, ?_, ?_, ?_⟩
  · show round2 (subtotalU i) = 0
    rw [hsub, hzero]
  · show round2 (markupAmountU i) = 0
    rw [hma, hzero]
  · show round2 (contingencyAmountU i) = 0
    rw [hca, hzero]
  · show round2 (afterMarkupU i) = 0
    rw [ham, hzero]
  · show round2 (afterContingencyU i) = 0
    rw [hac, hzero]
  · show round2 (taxBaseU i) = 0
    rw [htb, hzero]
  · show round2 (taxTotalU i) = 0
    rw [htt, hzero]
  · rfl
  · show round2 (grandU i) = round2 (mobilizationU i)
    rw [hg]

end Estimate

namespace Estimate

/-! ## C9 -/

lemma computeTotals_setFlag (input : ComputeTotalsInput) (b : Option Bool)
    (h : input.tiers = []) : computeTotals (setUseTiersFlag input b) = computeTotals input := by
  rcases input with ⟨items, est, set, tax, tiers⟩
  simp only at h
  subst h
  cases set with
  | none => rfl
  | some s =>
    simp [computeTotals, setUseTiersFlag, useTiersU, markupRateU, contingencyRateU,
      subtotalU, markupAmountU, afterMarkupU, beforeMarkupU, contingencyBaseU,
      contingencyAmountU, afterContingencyU, mobilizationU, taxRateDecU, anyTaxFlagU,
      taxBaseU, taxTotalU, grandU]

/-- C9: in `computeTotals` the tiered-markup path is taken only when the
`useMarkupTiers` flag is true AND the tier list is non-empty; with an
empty tier list the result is the same whether the flag is true or
false, and the markup falls back to the flat estimate-level percent. -/
theorem c9_empty_tiers_fallback (input : ComputeTotalsInput) (h : input.tiers = []) :
    computeTotals (setUseTiersFlag input (some true))
        = computeTotals (setUseTiersFlag input (some false)) ∧
    (computeTotals input).markupAmount
        = round2 (subtotalU input
            * (sanitizeNumber (input.estimate.bind (fun e => e.markupPct)) 0 / 100)) := by
  constructor
  · exact (computeTotals_setFlag input (some true) h).trans
      (computeTotals_setFlag input (some false) h).symm
  · have hut : useTiersU input = false := by
      simp [useTiersU, h]
    show round2 (markupAmountU input) = _
    simp only [markupAmountU, markupRateU, hut, Bool.false_eq_true, if_false]

/-- C9 witness: the fallback evaluated at a concrete input whose
settings enable `useMarkupTiers` while the tier list is empty. -/
theorem c9_witness :
    w9Input.tiers = [] ∧
    computeTotals (setUseTiersFlag w9Input (some true))
        = computeTotals (setUseTiersFlag w9Input (some false)) ∧
    (computeTotals w9Input).markupAmount
        = round2 (subtotalU w9Input
            * (sanitizeNumber (w9Input.estimate.bind (fun e => e.markupPct)) 0 / 100)) :=
  ⟨rfl, (c9_empty_tiers_fallback w9Input rfl).1, (c9_empty_tiers_fallback w9Input rfl).2⟩

/-! ## C7 -/

/-- C7 counterexample: `computeTotals` on a single 1 × 100 item carrying
a per-item `markupPct` of 50 while the estimate-level markup is 10
reports a markup of 10, not 50 — the per-line override is ignored. -/
theorem c7_counterexample :
    (computeTotals cx7Input).markupAmount = 10 ∧ (10 : ℚ) ≠ 50 := by
  constructor
  · have hsub : subtotalU cx7Input = 100 := by
      norm_num [subtotalU, cx7Input, sanitizeNumber]
    have hmr : markupRateU cx7Input = 1 / 10 := by
      norm_num [markupRateU, useTiersU, cx7Input, sanitizeNumber]
    show round2 (markupAmountU cx7Input) = 10
    rw [markupAmountU, hsub, hmr, show (100 : ℚ) * (1 / 10) = 10 by norm_num]
    exact round2_eq_self 10 1000 (by norm_num)
  · norm_num

/-- C7 amended: when `useMarkupTiers` is false, `withMarkupAndContingency`
takes the markup percent from its `lineMarkupPct` option, but
`computeTotals` ignores the per-item `markupPct` field entirely (its
result is invariant under arbitrary rewrites of that field) and always
uses the estimate-level `markupPct`. -/
theorem c7_markup_source_amended :
    (∀ (base : ℚ) (opts : WmcOptions), opts.useMarkupTiers = false →
        opts.contingencyOrder = ContingencyOrder.AFTER_MARKUP →
        (withMarkupAndContingency base opts).markup
            = round2 (base * (opts.lineMarkupPct.getD 0 / 100))) ∧
    (∀ (input : ComputeTotalsInput) (g : TotalsItemInput → Option ℚ),
        computeTotals
            { input with items := input.items.map (fun it => { it with markupPct := g it }) }
          = computeTotals input) ∧
    (∀ input : ComputeTotalsInput, useTiersU input = false →
        (computeTotals input).markupAmount
          = round2 (subtotalU input
              * (sanitizeNumber (input.estimate.bind (fun e => e.markupPct)) 0 / 100))) := by
  refine ⟨?_, ?_, ?_⟩
  · intro base opts hflag horder
    simp [withMarkupAndContingency, hflag, horder]
  · intro input g
    apply computeTotals_congr
    · simp only [subtotalU, List.foldl_map]
    · rfl
    · rfl
    · rfl
    · rfl
  · intro input h
    show round2 (markupAmountU input) = _
    simp only [markupAmountU, markupRateU, h, Bool.false_eq_true, if_false]

/-- C7 witness: the three amended statements evaluated at concrete
inputs (`w7Opts` for the per-line helper, `cx7Input` for the
aggregate). -/
theorem c7_witness :
    w7Opts.useMarkupTiers = false ∧
    w7Opts.contingencyOrder = ContingencyOrder.AFTER_MARKUP ∧
    (withMarkupAndContingency 100 w7Opts).markup
        = round2 (100 * (w7Opts.lineMarkupPct.getD 0 / 100)) ∧
    computeTotals
        { cx7Input with
          items := cx7Input.items.map (fun it => { it with markupPct := some 7 }) }
      = computeTotals cx7Input ∧
    useTiersU cx7Input = false ∧
    (computeTotals cx7Input).markupAmount
        = round2 (subtotalU cx7Input
            * (sanitizeNumber (cx7Input.estimate.bind (fun e => e.markupPct)) 0 / 100)) :=
  ⟨rfl, rfl, c7_markup_source_amended.1 100 w7Opts rfl rfl,
    c7_markup_source_amended.2.1 cx7Input (fun _ => some 7), rfl,
    c7_markup_source_amended.2.2 cx7Input rfl⟩

end Estimate

namespace Estimate

/-! ## C1 -/

/-- C1 counterexample: with `BEFORE_MARKUP`, a 100 base, 10 % markup and
10 % contingency, `computeTotals` reports contingency 10 and markup 10 —
the markup computed on the original base — whereas markup recomputed on
the contingency-inflated base `100 + 10` would be
`round2 (110 × 10/100) = 11`. -/
theorem c1_counterexample :
    (computeTotals cx1Input).contingencyAmount = 10 ∧
    (computeTotals cx1Input).markupAmount = 10 ∧
    round2 ((100 + 10) * (10 / 100)) = 11 ∧ (10 : ℚ) ≠ 11 := by
  have hsub : subtotalU cx1Input = 100 := by
    norm_num [subtotalU, cx1Input, sanitizeNumber]
  have hmr : markupRateU cx1Input = 1 / 10 := by
    norm_num [markupRateU, useTiersU, cx1Input, sanitizeNumber]
  have hcr : contingencyRateU cx1Input = 1 / 10 := by
    norm_num [contingencyRateU, cx1Input, sanitizeNumber]
  have hbm : beforeMarkupU cx1Input = true := rfl
  refine ⟨?_, ?_, ?_, by norm_num⟩
  · show round2 (contingencyAmountU cx1Input) = 10
    rw [contingencyAmountU, contingencyBaseU, hbm, if_pos rfl, hsub, hcr,
      show (100 : ℚ) * (1 / 10) = 10 by norm_num]
    exact round2_eq_self 10 1000 (by norm_num)
  · show round2 (markupAmountU cx1Input) = 10
    rw [markupAmountU, hsub, hmr, show (100 : ℚ) * (1 / 10) = 10 by norm_num]
    exact round2_eq_self 10 1000 (by norm_num)
  · rw [show ((100 : ℚ) + 10) * (10 / 100) = 11 by norm_num]
    exact round2_eq_self 11 1100 (by norm_num)

/-- C1 amended: with `BEFORE_MARKUP`, the per-line helper
`withMarkupAndContingency` computes contingency as
`round2 (base × percent/100)` and recomputes markup against the
contingency-inflated base `base + contingency`; the aggregate
`computeTotals`, however, computes its contingency against the original
subtotal but never recomputes markup — its reported `markupAmount` is
invariant under any change of the contingency configuration. -/
theorem c1_before_markup_amended :
    (∀ (base : ℚ) (opts : WmcOptions),
        opts.contingencyOrder = ContingencyOrder.BEFORE_MARKUP →
        (withMarkupAndContingency base opts).contingency
            = round2 (base * (opts.contingencyPct.getD 0 / 100)) ∧
        (withMarkupAndContingency base opts).markup
            = (if opts.useMarkupTiers then
                (applyMarkupTiers
                  (base + round2 (base * (opts.contingencyPct.getD 0 / 100)))
                  opts.tiers).markup
               else
                round2 ((base + round2 (base * (opts.contingencyPct.getD 0 / 100)))
                  * (opts.lineMarkupPct.getD 0 / 100)))) ∧
    (∀ (input : ComputeTotalsInput) (c d : Option ℚ) (o : Option ContingencyOrder),
        (computeTotals (setContingencyConfig input c d o)).markupAmount
            = (computeTotals input).markupAmount) ∧
    (∀ input : ComputeTotalsInput, beforeMarkupU input = true →
        (computeTotals input).contingencyAmount
            = round2 (subtotalU input * contingencyRateU input)) := by
  refine ⟨?_, ?_, ?_⟩
  · intro base opts horder
    constructor
    · simp [withMarkupAndContingency, horder]
    · simp [withMarkupAndContingency, horder]
  · intro input c d o
    show round2 (markupAmountU (setContingencyConfig input c d o))
        = round2 (markupAmountU input)
    congr 1
    apply markupAmountU_congr
    · simp only [subtotalU, setContingencyConfig]
    · cases hs : input.settings <;> simp [setContingencyConfig, hs]
    · rfl
    · cases he : input.estimate <;> simp [setContingencyConfig, he]
  · intro input h
    show round2 (contingencyAmountU input) = _
    rw [contingencyAmountU, contingencyBaseU, h, if_pos rfl]

/-- C1 witness: the amended statements evaluated at `w1Opts` (flat
10 % markup, 10 % contingency, `BEFORE_MARKUP`) and `cx1Input`. -/
theorem c1_witness :
    w1Opts.contingencyOrder = ContingencyOrder.BEFORE_MARKUP ∧
    (withMarkupAndContingency 100 w1Opts).contingency
        = round2 (100 * (w1Opts.contingencyPct.getD 0 / 100)) ∧
    (withMarkupAndContingency 100 w1Opts).markup
        = round2 ((100 + round2 (100 * (w1Opts.contingencyPct.getD 0 / 100)))
            * (w1Opts.lineMarkupPct.getD 0 / 100)) ∧
    (computeTotals
        (setContingencyConfig cx1Input (some 25) (some 3)
          (some ContingencyOrder.AFTER_MARKUP))).markupAmount
        = (computeTotals cx1Input).markupAmount ∧
    beforeMarkupU cx1Input = true ∧
    (computeTotals cx1Input).contingencyAmount
        = round2 (subtotalU cx1Input * contingencyRateU cx1Input) := by
  refine ⟨rfl, (c1_before_markup_amended.1 100 w1Opts rfl).1, ?_,
    c1_before_markup_amended.2.1 cx1Input (some 25) (some 3)
      (some ContingencyOrder.AFTER_MARKUP), rfl,
    c1_before_markup_amended.2.2 cx1Input rfl⟩
  have h := (c1_before_markup_amended.1 100 w1Opts rfl).2
  simpa [w1Opts] using h

end Estimate

namespace Estimate

/-! ## C2 -/

/-- C2 counterexample: two items of 1000 (material) and 500 (labor) with
only `taxMaterials` enabled give `computeTotals` a taxable base of 1500,
not 1000 — the aggregate taxes the whole post-contingency total, not the
flagged buckets. -/
theorem c2_counterexample :
    (computeTotals cx2Input).taxBase = 1500 ∧ (1500 : ℚ) ≠ 1000 := by
  have hsub : subtotalU cx2Input = 1500 := by
    norm_num [subtotalU, cx2Input, sanitizeNumber]
  have hmr : markupRateU cx2Input = 0 := by
    norm_num [markupRateU, useTiersU, cx2Input, sanitizeNumber]
  have hcr : contingencyRateU cx2Input = 0 := by
    norm_num [contingencyRateU, cx2Input, sanitizeNumber]
  have hma : markupAmountU cx2Input = 0 := by rw [markupAmountU, hmr, mul_zero]
  have hca : contingencyAmountU cx2Input = 0 := by rw [contingencyAmountU, hcr, mul_zero]
  have hbm : beforeMarkupU cx2Input = false := rfl
  have hac : afterContingencyU cx2Input = 1500 := by
    rw [afterContingencyU, hbm]
    simp only [Bool.false_eq_true, if_false]
    rw [afterMarkupU, hsub, hma, hca, add_zero, add_zero]
  have hflag : anyTaxFlagU cx2Input = true := rfl
  constructor
  · show round2 (taxBaseU cx2Input) = 1500
    rw [taxBaseU, hflag, if_pos rfl, hac]
    exact round2_eq_self 1500 150000 (by norm_num)
  · norm_num

/-- C2 amended: `applyTax` does compute its tax from exactly the sum of
the flag-selected buckets (the spec-side filtered sum
`taxableBaseSpec`); `computeTotals`, however, uses its documented MVP
model: the taxable base is the whole post-contingency total whenever any
flag is set, and 0 otherwise. -/
theorem c2_taxable_base_amended :
    (∀ (currentTotal : ℚ) (tax : TaxInfo),
        (applyTax currentTotal tax).tax
            = round2 (taxableBaseSpec tax * (tax.rate / 100))) ∧
    (∀ input : ComputeTotalsInput,
        (computeTotals input).taxBase
            = round2 (if anyTaxFlagU input then afterContingencyU input else 0)) := by
  constructor
  · intro ct tax
    rcases tax with ⟨rate, m, l, e, mk, c, bd⟩
    cases m <;> cases l <;> cases e <;> cases mk <;> cases c <;>
      simp [applyTax, taxableBaseSpec] <;> ring_nf
  · intro input
    rfl

/-! ## C3 -/

/-- C3 counterexample: at `cx3Input` (one 1 × 1 item, 0.5 % markup and
0.5 % contingency) the reported grand total is 1.01 while the sum of the
reported buckets is 1 + 0.01 + 0.01 + 0 + 0 = 1.02 — per-bucket rounding
breaks the additivity claimed for the reported fields. -/
theorem c3_counterexample :
    (computeTotals cx3Input).grand
        ≠ (computeTotals cx3Input).subtotal + (computeTotals cx3Input).markupAmount
          + (computeTotals cx3Input).contingencyAmount
          + (computeTotals cx3Input).mobilization + (computeTotals cx3Input).taxTotal := by
  have hsub : subtotalU cx3Input = 1 := by
    norm_num [subtotalU, cx3Input, sanitizeNumber]
  have hmr : markupRateU cx3Input = 1 / 200 := by
    norm_num [markupRateU, useTiersU, cx3Input, sanitizeNumber]
  have hcr : contingencyRateU cx3Input = 1 / 200 := by
    norm_num [contingencyRateU, cx3Input, sanitizeNumber]
  have hbm : beforeMarkupU cx3Input = false := rfl
  have hma : markupAmountU cx3Input = 1 / 200 := by
    rw [markupAmountU, hsub, hmr]
    norm_num
  have hca : contingencyAmountU cx3Input = 201 / 40000 := by
    rw [contingencyAmountU, contingencyBaseU, hbm]
    simp only [Bool.false_eq_true, if_false]
    rw [afterMarkupU, hsub, hma, hcr]
    norm_num
  have hac : afterContingencyU cx3Input = 1 + 1 / 200 + 201 / 40000 := by
    rw [afterContingencyU, hbm]
    simp only [Bool.false_eq_true, if_false]
    rw [afterMarkupU, hsub, hma, hca]
  have hmob : mobilizationU cx3Input = 0 := by
    norm_num [mobilizationU, cx3Input, sanitizeNumber]
  have hflag : anyTaxFlagU cx3Input = false := rfl
  have htt : taxTotalU cx3Input = 0 := by
    rw [taxTotalU, taxBaseU, hflag]
    simp only [Bool.false_eq_true, if_false]
    rw [zero_mul]
  have hg : grandU cx3Input = 40401 / 40000 := by
    rw [grandU, hac, hmob, htt]
    norm_num
  have e1 : (computeTotals cx3Input).grand = 101 / 100 := by
    show round2 (grandU cx3Input) = 101 / 100
    rw [hg, round2_eq_of (40401 / 40000) 101 (by norm_num [jsEpsilon]) (by norm_num [jsEpsilon])]
    norm_num
  have e2 : (computeTotals cx3Input).subtotal = 1 := by
    show round2 (subtotalU cx3Input) = 1
    rw [hsub]
    exact round2_eq_self 1 100 (by norm_num)
  have e3 : (computeTotals cx3Input).markupAmount = 1 / 100 := by
    show round2 (markupAmountU cx3Input) = 1 / 100
    rw [hma, round2_eq_of (1 / 200) 1 (by norm_num [jsEpsilon]) (by norm_num [jsEpsilon])]
    norm_num
  have e4 : (computeTotals cx3Input).contingencyAmount = 1 / 100 := by
    show round2 (contingencyAmountU cx3Input) = 1 / 100
    rw [hca, round2_eq_of (201 / 40000) 1 (by norm_num [jsEpsilon]) (by norm_num [jsEpsilon])]
    norm_num
  have e5 : (computeTotals cx3Input).mobilization = 0 := by
    show round2 (mobilizationU cx3Input) = 0
    rw [hmob]
    exact round2_eq_self 0 0 (by norm_num)
  have e6 : (computeTotals cx3Input).taxTotal = 0 := by
    show round2 (taxTotalU cx3Input) = 0
    rw [htt]
    exact round2_eq_self 0 0 (by norm_num)
  rw [e1, e2, e3, e4, e5, e6]
  norm_num

/-- C3 amended: the reported grand total is the `round2` of the exact
(unrounded) sum `subtotal + markup + contingency + mobilization + tax`
— each bucket once — but, because the other reported fields are rounded
individually, it can differ from the sum of the reported buckets (and no
separate overhead bucket exists in `computeTotals`). -/
theorem c3_grand_composition_amended (input : ComputeTotalsInput) :
    (computeTotals input).grand
        = round2 (subtotalU input + markupAmountU input + contingencyAmountU input
            + mobilizationU input + taxTotalU input) := by
  show round2 (grandU input) = _
  congr 1
  rw [grandU, afterContingencyU, afterMarkupU]
  by_cases hb : beforeMarkupU input = true
  · rw [if_pos hb]
  · rw [if_neg hb]

end Estimate

namespace Estimate

/-! ## Sorting lemmas for C8 and C10 -/

lemma sorted_nodup_rank_eq :
    ∀ {l1 l2 : List MarkupTier}, l1.Perm l2 → l1.Sorted rankLe → l2.Sorted rankLe →
      (l1.map MarkupTier.rank).Nodup → l1 = l2 := by
  intro l1
  induction l1 with
  | nil =>
    intro l2 hp _ _ _
    exact hp.nil_eq
  | cons a t ih =>
    intro l2 hp hs1 hs2 hn
    cases l2 with
    | nil => exact absurd hp.symm.nil_eq (by simp)
    | cons b t2 =>
      have ha : a ∈ b :: t2 := hp.mem_iff.mp (List.mem_cons_self a t)
      have hb : b ∈ a :: t := hp.mem_iff.mpr (List.mem_cons_self b t2)
      have hn2 : (a.rank :: t.map MarkupTier.rank).Nodup := by simpa using hn
      have hab : a = b := by
        rcases List.mem_cons.mp hb with h | h
        · exact h.symm
        · have h1 : rankLe a b := (List.sorted_cons.mp hs1).1 b h
          rcases List.mem_cons.mp ha with h2 | h2
          · exact h2
          · have h3 : rankLe b a := (List.sorted_cons.mp hs2).1 a h2
            have hr : a.rank = b.rank := le_antisymm h1 h3
            have hmem : a.rank ∈ t.map MarkupTier.rank := by
              rw [hr]
              exact List.mem_map_of_mem MarkupTier.rank h
            exact absurd hmem (List.nodup_cons.mp hn2).1
      subst hab
      have hp2 : t.Perm t2 := hp.cons_inv
      have hrec := ih hp2 (List.sorted_cons.mp hs1).2 (List.sorted_cons.mp hs2).2
        (List.nodup_cons.mp hn2).2
      rw [hrec]

lemma sortTiers_eq_of_perm {l1 l2 : List MarkupTier} (hp : l1.Perm l2)
    (hn : (l1.map MarkupTier.rank).Nodup) : sortTiers l1 = sortTiers l2 := by
  apply sorted_nodup_rank_eq
  · exact (List.perm_insertionSort rankLe l1).trans
      (hp.trans (List.perm_insertionSort rankLe l2).symm)
  · exact List.sorted_insertionSort rankLe l1
  · exact List.sorted_insertionSort rankLe l2
  · exact (((List.perm_insertionSort rankLe l1).map MarkupTier.rank).symm).nodup hn

lemma tierSlice_width (r : ℚ) (t : MarkupTier) :
    tierSlice r t = (match (tierWidthPct t).1 with
      | none => max 0 r
      | some w => max 0 (min r w)) := by
  cases h : t.maxAmount <;> simp [tierSlice, tierWidthPct, h]

lemma tierLoop_congr :
    ∀ (s1 s2 : List MarkupTier) (r m : ℚ),
      s1.map tierWidthPct = s2.map tierWidthPct → tierLoop r m s1 = tierLoop r m s2 := by
  intro s1
  induction s1 with
  | nil =>
    intro s2 r m h
    have h2 : s2.map tierWidthPct = [] := by simpa using h.symm
    rw [List.map_eq_nil_iff.mp h2]
  | cons t ts ih =>
    intro s2 r m h
    cases s2 with
    | nil => simp at h
    | cons t2 ts2 =>
      simp only [List.map_cons, List.cons.injEq] at h
      obtain ⟨hh, htail⟩ := h
      have hslice : tierSlice r t = tierSlice r t2 := by
        rw [tierSlice_width, tierSlice_width, hh]
      have hpct : t.percent = t2.percent := congrArg Prod.snd hh
      rw [tierLoop, tierLoop]
      by_cases hr : r ≤ 0
      · rw [if_pos hr, if_pos hr]
      · rw [if_neg hr, if_neg hr]
        simp only [hslice, hpct]
        by_cases hs : 0 < tierSlice r t2
        · rw [if_pos hs, if_pos hs]
          exact ih ts2 _ _ htail
        · rw [if_neg hs, if_neg hs]
          exact ih ts2 _ _ htail

/-! ## C10 -/

/-- C10: `applyMarkupTiers` consumes the base purely by tier widths — if
two tier lists, once sorted by rank, have the same sequence of
`(width, percent)` pairs (`tierWidthPct`), they produce identical
results for every base, regardless of the absolute positions of
`minAmount`/`maxAmount`; gapped or overlapping bands are priced as if
translated to a contiguous partition starting at 0. -/
theorem c10_width_only (base : ℚ) (l1 l2 : List MarkupTier)
    (h : (sortTiers l1).map tierWidthPct = (sortTiers l2).map tierWidthPct) :
    applyMarkupTiers base l1 = applyMarkupTiers base l2 := by
  have hlen : l1.length = l2.length := by
    have h1 : ((sortTiers l1).map tierWidthPct).length
        = ((sortTiers l2).map tierWidthPct).length := by rw [h]
    simpa [sortTiers, List.length_insertionSort] using h1
  have hemp : l1.isEmpty = l2.isEmpty := by
    cases l1 <;> cases l2 <;> simp_all
  have hml : tierLoop base 0 (sortTiers l1) = tierLoop base 0 (sortTiers l2) :=
    tierLoop_congr _ _ _ _ h
  rw [applyMarkupTiers, applyMarkupTiers, hemp, hml]

/-- C10 witness: the band `[0, 10) @ 5 %` and its translate
`[100, 110) @ 5 %` price base 7 identically. -/
theorem c10_witness :
    (sortTiers [tierE]).map tierWidthPct = (sortTiers [tierF]).map tierWidthPct ∧
    applyMarkupTiers 7 [tierE] = applyMarkupTiers 7 [tierF] :=
  ⟨by norm_num [sortTiers, List.insertionSort, List.orderedInsert, tierWidthPct, tierE, tierF],
    c10_width_only 7 _ _
      (by norm_num [sortTiers, List.insertionSort, List.orderedInsert, tierWidthPct,
        tierE, tierF])⟩

/-! ## C8 -/

/-- C8 counterexample: with two tiers sharing rank 1 (`[0,10) @ 10 %`
and `[0,20) @ 50 %`), the two orderings of the same tier list give
markup 1 and 5 at base 10 — the stable rank sort preserves the input
order of equal ranks, so the result is not permutation-invariant. -/
theorem c8_counterexample :
    ([tierB, tierA] : List MarkupTier).Perm [tierA, tierB] ∧
    (applyMarkupTiers 10 [tierA, tierB]).markup = 1 ∧
    (applyMarkupTiers 10 [tierB, tierA]).markup = 5 ∧ (1 : ℚ) ≠ 5 := by
  refine ⟨List.Perm.swap tierA tierB [], ?_, ?_, by norm_num⟩
  · norm_num [applyMarkupTiers, sortTiers, List.insertionSort, List.orderedInsert,
      rankLe, tierLoop, tierSlice, tierA, tierB, round2_eq_self 1 100 (by norm_num)]
  · norm_num [applyMarkupTiers, sortTiers, List.insertionSort, List.orderedInsert,
      rankLe, tierLoop, tierSlice, tierA, tierB, round2_eq_self 5 500 (by norm_num)]

/-- C8 amended: `applyMarkupTiers` sorts tiers by rank itself, so its
result is the same on any permutation of the tier list PROVIDED the
tiers carry pairwise distinct ranks; with duplicate ranks the stable
sort preserves input order and the guarantee fails. -/
theorem c8_perm_amended (base : ℚ) (l1 l2 : List MarkupTier) (hp : l1.Perm l2)
    (hn : (l1.map MarkupTier.rank).Nodup) :
    applyMarkupTiers base l1 = applyMarkupTiers base l2 := by
  have hsort := sortTiers_eq_of_perm hp hn
  have hlen := hp.length_eq
  have hemp : l1.isEmpty = l2.isEmpty := by
    cases l1 <;> cases l2 <;> simp_all
  rw [applyMarkupTiers, applyMarkupTiers, hemp, hsort]

/-- C8 witness: the distinct-rank tiers `tierC` (rank 2) and `tierD`
(rank 1) give the same result in either input order. -/
theorem c8_witness :
    ([tierC, tierD] : List MarkupTier).Perm [tierD, tierC] ∧
    (([tierC, tierD] : List MarkupTier).map MarkupTier.rank).Nodup ∧
    applyMarkupTiers 100 [tierC, tierD] = applyMarkupTiers 100 [tierD, tierC] :=
  ⟨List.Perm.swap tierD tierC [], by norm_num [tierC, tierD],
    c8_perm_amended 100 _ _ (List.Perm.swap tierD tierC []) (by norm_num [tierC, tierD])⟩

end Estimate
